import Mathlib

/-!
Verification of the zone classification and hot/cold differential engine of the
NBA shot-chart visualization repository.

The Python sources are shallowly embedded over `ℚ`:

* Court constants come from `src/nba_shotviz/src/court_geometry.py`.
* `classify_basic_zone` / `classify_area_lane` come from
  `src/nba_shotviz/src/zone_classify.py`.  The source compares Euclidean
  distances computed with `math.hypot` against radii; here those comparisons
  are encoded exactly by comparing squared distances.  The source also
  precomputes the irrational abscissa `_X_MEET = HOOP_X + R·cos(asin(22/R))`
  where the three-point arc meets the corner lines; the comparison
  `x ≤ _X_MEET` is encoded sign-aware as
  `x ≤ HOOP_X ∨ (x - HOOP_X)² ≤ R² - 22²`, which is equivalent over the reals
  because `_X_MEET - HOOP_X = √(R² - 22²) ≥ 0`.
* `_collapse_atb_area`, the grid builder `zone_diff_grid` and the boundary
  extractor `add_zone_boundaries_from_labels` come from `src/heatmap.py`.
* The zone aggregation tables come from `src/nba_shotviz/src/zone_tables.py`.
  Pandas data frames are modelled as a list of column names together with a
  list of rows; `groupby` is modelled by the list of distinct keys, each
  paired with the sublist of rows carrying that key (pandas sorts group keys,
  but every aggregate computed here is independent of group order).
* The shot coordinate transform comes from `src/shots.py`.
-/

/-! ### Court geometry constants (`src/nba_shotviz/src/court_geometry.py`) -/

def COURT_LENGTH_HALF : ℚ := 47

def COURT_WIDTH : ℚ := 50

def BACKBOARD_X : ℚ := 4

def RIM_TO_BACKBOARD : ℚ := 1.25

def HOOP_X : ℚ := BACKBOARD_X + RIM_TO_BACKBOARD

def HOOP_Y : ℚ := 0

def THREE_PT_RADIUS : ℚ := 23.75

def THREE_PT_CORNER : ℚ := 22

def PAINT_WIDTH : ℚ := 16

def FT_LINE_X : ℚ := 19

/-! ### Zone classification (`src/nba_shotviz/src/zone_classify.py`) -/

/-- Restricted area radius (feet). -/
def _RESTRICTED_R : ℚ := 4

/-- Lane half-width. -/
def _HALF_PAINT : ℚ := PAINT_WIDTH / 2

/-- The table `_AREAS` of the source, scanned in order with the first matching
band returned and `"Right Side(R)"` as the right-most inclusive fallback.
The loop over the five-row constant is unrolled here. -/
def laneOf (yy : ℚ) : String :=
  if -25 ≤ yy ∧ yy < -15 then "Left Side(L)"
  else if -15 ≤ yy ∧ yy < -5 then "Left Side Center(LC)"
  else if -5 ≤ yy ∧ yy < 5 then "Center(C)"
  else if 5 ≤ yy ∧ yy < 15 then "Right Side Center(RC)"
  else if 15 ≤ yy ∧ yy < 25 then "Right Side(R)"
  else "Right Side(R)"

/-- `classify_area_lane(y)`: clamp `y` to `[-25, 25]`, then scan the five
lateral bands. -/
def classify_area_lane (y : ℚ) : String :=
  laneOf (max (-25) (min 25 y))

/-- `classify_basic_zone(x, y, pad_ft)`.  Distance tests are encoded by
squared distances; the corner-three abscissa test `x ≤ _X_MEET` is encoded
sign-aware as described in the header. -/
def classify_basic_zone (x y : ℚ) (pad_ft : ℚ := 0) : String :=
  if (x - HOOP_X) ^ 2 + (y - HOOP_Y) ^ 2 ≤ _RESTRICTED_R ^ 2 then "Restricted Area"
  else if 0 - pad_ft ≤ x ∧ x ≤ FT_LINE_X + pad_ft ∧ |y| ≤ _HALF_PAINT + pad_ft then
    "In The Paint (Non-RA)"
  else if THREE_PT_CORNER ≤ |y| ∧
      (x ≤ HOOP_X ∨ (x - HOOP_X) ^ 2 ≤ THREE_PT_RADIUS ^ 2 - THREE_PT_CORNER ^ 2) then
    (if y < 0 then "Left Corner 3" else "Right Corner 3")
  else if THREE_PT_RADIUS ^ 2 ≤ (x - HOOP_X) ^ 2 + (y - HOOP_Y) ^ 2 then "Above the Break 3"
  else "Mid-Range"

/-! ### Above-the-Break collapse (`src/heatmap.py`) -/

/-- `_collapse_atb_area`: collapse ATB areas to L / C / R (catch-all to
Center). -/
def _collapse_atb_area (area : String) : String :=
  if area = "Left Side(L)" ∨ area = "Left Side Center(LC)" then "Left Side(L)"
  else if area = "Right Side(R)" ∨ area = "Right Side Center(RC)" then "Right Side(R)"
  else "Center(C)"

/-! ### Safe ratio (`src/nba_shotviz/src/zone_tables.py`) -/

/-- `_safe_ratio(numer, denom)` of the source: `numer/denom` if `denom > 0`
else `0.0`. -/
def safeRatio0 (numer denom : ℚ) : ℚ :=
  if 0 < denom then numer / denom else 0

/-! ### Shot coordinate transform (`src/shots.py`) -/

/-- `INCHES_TO_FEET = 1 / 10.0` of the source (the raw data is in tenths of
feet). -/
def INCHES_TO_FEET : ℚ := 1 / 10

/-- `nba_shot_to_court_xy(loc_x_in, loc_y_in)`: raw hoop-centered location to
the baseline court frame. -/
def nba_shot_to_court_xy (loc_x_in loc_y_in : ℚ) : ℚ × ℚ :=
  (HOOP_X + loc_y_in * INCHES_TO_FEET, loc_x_in * INCHES_TO_FEET)

/-! ### Helper lemmas on the classifiers -/

/-- The restricted-area test is the first branch of `classify_basic_zone`. -/
lemma classify_restricted (x y pad_ft : ℚ)
    (h : (x - HOOP_X) ^ 2 + (y - HOOP_Y) ^ 2 ≤ _RESTRICTED_R ^ 2) :
    classify_basic_zone x y pad_ft = "Restricted Area" := by
  unfold classify_basic_zone
  rw [if_pos h]

/-- Clamping to `[-25, 25]` is idempotent. -/
lemma clamp_idem (z : ℚ) :
    max (-25) (min 25 (max (-25) (min 25 z))) = max (-25) (min 25 z) := by
  have h1 : (-25 : ℚ) ≤ max (-25) (min 25 z) := le_max_left _ _
  have h2 : max (-25 : ℚ) (min 25 z) ≤ 25 := max_le (by norm_num) (min_le_left _ _)
  rw [min_eq_right h2, max_eq_right h1]

/-- On `[-25, 25]` the clamp is the identity. -/
lemma classify_area_lane_of_mem (z : ℚ) (h1 : -25 ≤ z) (h2 : z ≤ 25) :
    classify_area_lane z = laneOf z := by
  unfold classify_area_lane
  rw [min_eq_right h2, max_eq_right h1]

/-! ### Claim theorems on the classifiers -/

/-- C5: every coordinate whose (squared) Euclidean distance from the hoop
center is at most `4.0²` is classified `Restricted Area`, for every value of
`pad_ft`: the exact restricted-area test is checked before all other zone
tests. -/
theorem claim_C5_restricted_area (x y pad_ft : ℚ)
    (h : (x - HOOP_X) ^ 2 + (y - HOOP_Y) ^ 2 ≤ _RESTRICTED_R ^ 2) :
    classify_basic_zone x y pad_ft = "Restricted Area" :=
  classify_restricted x y pad_ft h

theorem claim_C5_witness :
    classify_basic_zone 5.25 0 7 = "Restricted Area" :=
  claim_C5_restricted_area 5.25 0 7
    (by norm_num [HOOP_X, HOOP_Y, BACKBOARD_X, RIM_TO_BACKBOARD, _RESTRICTED_R])

/-- C6: `classify_area_lane` agrees with itself after clamping `y` to
`[-25, 25]`, and on the clamped range follows the five fixed bands
Left `[-25,-15)`, LeftCenter `[-15,-5)`, Center `[-5,5)`,
RightCenter `[5,15)`, Right `[15,25]` (the final band closed at `25`). -/
theorem claim_C6_area_lanes (y : ℚ) :
    classify_area_lane y = classify_area_lane (max (-25) (min 25 y))
    ∧ (-25 ≤ y → y < -15 → classify_area_lane y = "Left Side(L)")
    ∧ (-15 ≤ y → y < -5 → classify_area_lane y = "Left Side Center(LC)")
    ∧ (-5 ≤ y → y < 5 → classify_area_lane y = "Center(C)")
    ∧ (5 ≤ y → y < 15 → classify_area_lane y = "Right Side Center(RC)")
    ∧ (15 ≤ y → y ≤ 25 → classify_area_lane y = "Right Side(R)") := by
  refine ⟨?_, ?_, ?_, ?_, ?_, ?_⟩
  · show laneOf _ = laneOf _
    rw [clamp_idem]
  all_goals
    intro h1 h2
    rw [classify_area_lane_of_mem y (by linarith) (by linarith)]
    unfold laneOf
    split_ifs with g1 g2 g3 g4 g5 <;>
      first
      | rfl
      | (exfalso
         first
         | exact g1 ⟨by linarith, by linarith⟩
         | exact g2 ⟨by linarith, by linarith⟩
         | exact g3 ⟨by linarith, by linarith⟩
         | exact g4 ⟨by linarith, by linarith⟩
         | exact g5 ⟨by linarith, by linarith⟩
         | linarith [g1.1, g1.2]
         | linarith [g2.1, g2.2]
         | linarith [g3.1, g3.2]
         | linarith [g4.1, g4.2]
         | linarith [g5.1, g5.2])

theorem claim_C6_witness :
    classify_area_lane (20 : ℚ) = "Right Side(R)" ∧
      classify_area_lane (20 : ℚ) = classify_area_lane (max (-25) (min 25 (20 : ℚ))) :=
  ⟨(claim_C6_area_lanes 20).2.2.2.2.2 (by norm_num) (by norm_num),
   (claim_C6_area_lanes 20).1⟩

/-- C7: the Above-the-Break collapse transform is idempotent on every
area-lane label. -/
theorem claim_C7_collapse_idempotent (area : String) :
    _collapse_atb_area (_collapse_atb_area area) = _collapse_atb_area area := by
  have h : _collapse_atb_area area = "Left Side(L)"
      ∨ _collapse_atb_area area = "Right Side(R)"
      ∨ _collapse_atb_area area = "Center(C)" := by
    unfold _collapse_atb_area
    split_ifs <;> simp
  rcases h with h | h | h <;> rw [h] <;> decide

/-- C8: for integers `0 ≤ m ≤ a`, the safe ratio is `0` when `a = 0` and
`m / a` otherwise, and the result always lies in `[0, 1]` (no overflow,
no undefined value). -/
theorem claim_C8_safe_ratio (m a : ℤ) (h0 : 0 ≤ m) (hma : m ≤ a) :
    (safeRatio0 (m : ℚ) (a : ℚ) = if a = 0 then 0 else (m : ℚ) / (a : ℚ))
    ∧ 0 ≤ safeRatio0 (m : ℚ) (a : ℚ) ∧ safeRatio0 (m : ℚ) (a : ℚ) ≤ 1 := by
  by_cases ha : a = 0
  · subst ha
    rw [safeRatio0]
    norm_num
  · have ha' : 0 < a := lt_of_le_of_ne (le_trans h0 hma) (Ne.symm ha)
    have haq : (0 : ℚ) < (a : ℚ) := by exact_mod_cast ha'
    rw [safeRatio0, if_pos haq, if_neg ha]
    refine ⟨rfl, div_nonneg (by exact_mod_cast h0) haq.le, ?_⟩
    rw [div_le_one haq]
    exact_mod_cast hma

theorem claim_C8_witness :
    safeRatio0 ((3 : ℤ) : ℚ) ((4 : ℤ) : ℚ)
      = if (4 : ℤ) = 0 then 0 else ((3 : ℤ) : ℚ) / ((4 : ℤ) : ℚ) :=
  (claim_C8_safe_ratio 3 4 (by norm_num) (by norm_num)).1

/-- C9: the coordinate transform is the stated pure affine map
`(loc_x, loc_y) ↦ (hoop_x + loc_y·0.1, loc_x·0.1)`; in particular the raw
location `(0, 0)` maps to `(HOOP_X, 0)`, which is classified
`Restricted Area` for every `pad_ft`. -/
theorem claim_C9_coord_transform (loc_x_in loc_y_in pad_ft : ℚ) :
    nba_shot_to_court_xy loc_x_in loc_y_in
      = (HOOP_X + loc_y_in * (1 / 10), loc_x_in * (1 / 10))
    ∧ nba_shot_to_court_xy 0 0 = (HOOP_X, 0)
    ∧ classify_basic_zone (nba_shot_to_court_xy 0 0).1 (nba_shot_to_court_xy 0 0).2 pad_ft
        = "Restricted Area" := by
  refine ⟨rfl, by norm_num [nba_shot_to_court_xy, INCHES_TO_FEET], ?_⟩
  exact classify_restricted _ _ _
    (by norm_num [nba_shot_to_court_xy, INCHES_TO_FEET, HOOP_X, HOOP_Y,
      BACKBOARD_X, RIM_TO_BACKBOARD, _RESTRICTED_R])

/-- C10: the collapse transform is total on strings with range exactly
`{Left Side(L), Center(C), Right Side(R)}`; every input other than the four
recognized side labels is mapped to `Center(C)` by the catch-all branch. -/
theorem claim_C10_collapse_range (area : String) :
    (_collapse_atb_area area = "Left Side(L)"
      ∨ _collapse_atb_area area = "Center(C)"
      ∨ _collapse_atb_area area = "Right Side(R)")
    ∧ (area ≠ "Left Side(L)" → area ≠ "Left Side Center(LC)" →
        area ≠ "Right Side(R)" → area ≠ "Right Side Center(RC)" →
        _collapse_atb_area area = "Center(C)")
    ∧ _collapse_atb_area "Left Side(L)" = "Left Side(L)"
    ∧ _collapse_atb_area "Back Court(BC)" = "Center(C)"
    ∧ _collapse_atb_area "Right Side(R)" = "Right Side(R)" := by
  refine ⟨?_, ?_, by decide, by decide, by decide⟩
  · unfold _collapse_atb_area
    split_ifs <;> simp
  · intro h1 h2 h3 h4
    unfold _collapse_atb_area
    rw [if_neg, if_neg]
    · rintro (h | h) <;> [exact h3 h; exact h4 h]
    · rintro (h | h) <;> [exact h1 h; exact h2 h]

theorem claim_C10_witness :
    _collapse_atb_area "Corner" = "Center(C)" :=
  (claim_C10_collapse_range "Corner").2.1
    (by decide) (by decide) (by decide) (by decide)

/-! ### Data-frame model (`src/nba_shotviz/src/zone_tables.py`)

A pandas frame is modelled as the list of its column names plus its rows.
A row carries every column the aggregation functions may read; a numeric
field is only meaningful when the corresponding column name is present. -/

structure PlayerShotRow where
  basic : String
  area : String
  madeFlag : ℚ
deriving DecidableEq

structure PlayerDF where
  cols : List String
  rows : List PlayerShotRow
deriving DecidableEq

structure LeagueShotRow where
  basic : String
  area : String
  fgm : ℚ
  fga : ℚ
  fgPct : ℚ
  madeFlag : ℚ
deriving DecidableEq

structure LeagueDF where
  cols : List String
  rows : List LeagueShotRow
deriving DecidableEq

/-- Output row of `player_zone_fg_table`. -/
structure PlayerAgg where
  basic : String
  area : String
  playerFg : ℚ
  att : ℚ
  made : ℚ
deriving DecidableEq

/-- Output row of `league_zone_fg_table`. -/
structure LeagueAgg where
  basic : String
  area : String
  leagueFg : ℚ
deriving DecidableEq

/-- The distinct keys occurring in a list (pandas `groupby` group keys; pandas
sorts them, but all aggregates below are independent of group order). -/
def uniqueKeys : List (String × String) → List (String × String)
  | [] => []
  | k :: ks => if k ∈ uniqueKeys ks then uniqueKeys ks else k :: uniqueKeys ks

/-- `groupby`: each distinct key paired with the rows carrying it. -/
def groupBy {α : Type} (key : α → String × String) (rows : List α) :
    List ((String × String) × List α) :=
  (uniqueKeys (rows.map key)).map fun k => (k, rows.filter fun r => decide (key r = k))

/-- `player_zone_fg_table(player_df)`: group player shots by the
source-provided zone labels; `att` = group size, `made` = sum of the make
flag, `player_fg` = safe ratio. -/
def player_zone_fg_table (player_df : PlayerDF) : Except String (List PlayerAgg) :=
  if "SHOT_ZONE_BASIC" ∈ player_df.cols ∧ "SHOT_ZONE_AREA" ∈ player_df.cols then
    Except.ok <|
      (groupBy (fun r => (r.basic, r.area))
          (if "SHOT_MADE_FLAG" ∈ player_df.cols then player_df.rows
           else player_df.rows.map fun r => { r with madeFlag := 0 })).map fun g =>
        { basic := g.1.1, area := g.1.2,
          playerFg := safeRatio0 ((g.2.map fun r => r.madeFlag).sum) (g.2.length : ℚ),
          att := (g.2.length : ℚ), made := (g.2.map fun r => r.madeFlag).sum }
  else Except.error "player_df missing required columns"

/-- `league_zone_fg_table(league_df)`: tolerate the three supported schemas
(FGM+FGA, FG_PCT with optional FGA weighting, per-shot make flag); if none
matches, return an empty table. -/
def league_zone_fg_table (league_df : LeagueDF) : Except String (List LeagueAgg) :=
  if "SHOT_ZONE_BASIC" ∈ league_df.cols ∧ "SHOT_ZONE_AREA" ∈ league_df.cols then
    if "FGM" ∈ league_df.cols ∧ "FGA" ∈ league_df.cols then
      Except.ok <|
        (groupBy (fun r => (r.basic, r.area)) league_df.rows).map fun g =>
          { basic := g.1.1, area := g.1.2,
            leagueFg := safeRatio0 ((g.2.map fun r => r.fgm).sum)
              ((g.2.map fun r => r.fga).sum) }
    else if "FG_PCT" ∈ league_df.cols then
      if "FGA" ∈ league_df.cols then
        Except.ok <|
          (groupBy (fun r => (r.basic, r.area)) league_df.rows).map fun g =>
            { basic := g.1.1, area := g.1.2,
              leagueFg := ((g.2.map fun r => r.fgPct * r.fga).sum)
                / max ((g.2.map fun r => r.fga).sum) 1 }
      else
        Except.ok <|
          (groupBy (fun r => (r.basic, r.area)) league_df.rows).map fun g =>
            { basic := g.1.1, area := g.1.2,
              leagueFg := ((g.2.map fun r => r.fgPct).sum) / (g.2.length : ℚ) }
    else if "SHOT_MADE_FLAG" ∈ league_df.cols then
      Except.ok <|
        (groupBy (fun r => (r.basic, r.area)) league_df.rows).map fun g =>
          { basic := g.1.1, area := g.1.2,
            leagueFg := safeRatio0 ((g.2.map fun r => r.madeFlag).sum)
              ((g.2.length : ℚ)) }
    else Except.ok []
  else Except.error "league_df missing required columns"

/-! ### Differential grid builder (`src/heatmap.py`, `zone_diff_grid`) -/

def badAreas : List String := ["Back Court(BC)", "None"]

/-- Zone key assigned to a grid cell centred at `(x, y)`: basic zone with
`pad_ft = bin/2`; paint and restricted area force the `Center(C)` lane;
Above-the-Break lanes are collapsed. -/
def cellKey (bin_ft x y : ℚ) : String × String :=
  (classify_basic_zone x y (bin_ft / 2),
   if classify_basic_zone x y (bin_ft / 2) = "In The Paint (Non-RA)"
       ∨ classify_basic_zone x y (bin_ft / 2) = "Restricted Area" then "Center(C)"
   else if classify_basic_zone x y (bin_ft / 2) = "Above the Break 3" then
     _collapse_atb_area (classify_area_lane y)
   else classify_area_lane y)

/-- The per-cell label string `f"{basic}_{area}"`. -/
def encodeKey (k : String × String) : String := k.1 ++ "_" ++ k.2

/-- A row of the merged table `zt` (player left-joined with league). -/
structure ZtRow where
  basic : String
  area : String
  playerFg : ℚ
  att : ℚ
  made : ℚ
  leagueFg : ℚ
  diff : ℚ
deriving DecidableEq

/-- Collapse ATB areas in the player table, re-aggregate `att`/`made` and
recompute `player_fg`. -/
def collapsePlayer (pl : List PlayerAgg) : List PlayerAgg :=
  (groupBy (fun r => (r.basic, r.area))
      (pl.map fun r =>
        if r.basic = "Above the Break 3" then
          { r with area := _collapse_atb_area r.area }
        else r)).map fun g =>
    { basic := g.1.1, area := g.1.2,
      playerFg :=
        if (0 : ℚ) < (g.2.map fun r => r.att).sum then
          ((g.2.map fun r => r.made).sum) / ((g.2.map fun r => r.att).sum)
        else 0,
      att := (g.2.map fun r => r.att).sum, made := (g.2.map fun r => r.made).sum }

/-- Collapse ATB areas in the league table and average `league_fg`. -/
def collapseLeague (lg : List LeagueAgg) : List LeagueAgg :=
  (groupBy (fun r => (r.basic, r.area))
      (lg.map fun r =>
        if r.basic = "Above the Break 3" then
          { r with area := _collapse_atb_area r.area }
        else r)).map fun g =>
    { basic := g.1.1, area := g.1.2,
      leagueFg := ((g.2.map fun r => r.leagueFg).sum) / (g.2.length : ℚ) }

/-- Left-join of the player table onto the league table by zone key;
a missing league percentage falls back to the player's own percentage, and
`diff = player_fg - league_fg`.  (The league table has one row per key after
`groupby`, so `find?` is the pandas merge.) -/
def mergeTables (pl : List PlayerAgg) (lg : List LeagueAgg) : List ZtRow :=
  pl.map fun p =>
    { basic := p.basic, area := p.area, playerFg := p.playerFg, att := p.att,
      made := p.made,
      leagueFg :=
        match lg.find? (fun l => decide ((l.basic, l.area) = (p.basic, p.area))) with
        | some l => l.leagueFg
        | none => p.playerFg,
      diff := p.playerFg -
        match lg.find? (fun l => decide ((l.basic, l.area) = (p.basic, p.area))) with
        | some l => l.leagueFg
        | none => p.playerFg }

/-- The merged table `zt` built by `zone_diff_grid` from the two aggregation
tables: drop backcourt/unknown areas, collapse ATB, merge. -/
def ztOf (plA : List PlayerAgg) (lgA : List LeagueAgg) : List ZtRow :=
  mergeTables
    (collapsePlayer (plA.filter fun r => decide (r.area ∉ badAreas)))
    (collapseLeague (lgA.filter fun r => decide (r.area ∉ badAreas)))

/-- The dictionary `zone_to_diff` lookup (keys of `zt` are unique, so
left-to-right `find?` is the Python dict built from its rows). -/
def ztLookup (zt : List ZtRow) (k : String × String) : Option ZtRow :=
  zt.find? fun r => decide ((r.basic, r.area) = k)

/-- `zone_to_diff.get(key, 0.0)`. -/
def diffLookup (zt : List ZtRow) (k : String × String) : ℚ :=
  match ztLookup zt k with
  | some r => r.diff
  | none => 0

/-- `np.arange(start, stop, step)`: `⌈(stop - start)/step⌉` points
`start + k·step`. -/
def arange (start stop step : ℚ) : List ℚ :=
  (List.range (Int.toNat ⌈(stop - start) / step⌉)).map fun k => start + (k : ℚ) * step

def xCenters (bin_ft : ℚ) : List ℚ := arange (bin_ft / 2) COURT_LENGTH_HALF bin_ft

def yCenters (bin_ft : ℚ) : List ℚ :=
  arange (-(COURT_WIDTH / 2) + bin_ft / 2) (COURT_WIDTH / 2) bin_ft

/-- The grids returned by `zone_diff_grid` with `return_labels=True`
(row-major, `X[i,j] = x_centers[j]`, `Y[i,j] = y_centers[i]`; the hover-text
variant only adds rendering strings).  `np.nan_to_num` is the identity over
`ℚ`. -/
structure GridOut where
  X : List (List ℚ)
  Y : List (List ℚ)
  Z : List (List ℚ)
  labels : List (List String)

/-- Grid construction from the two aggregation tables. -/
def buildGrid (plA : List PlayerAgg) (lgA : List LeagueAgg) (bin_ft : ℚ) : GridOut :=
  { X := (yCenters bin_ft).map fun _ => xCenters bin_ft
    Y := (yCenters bin_ft).map fun y => (xCenters bin_ft).map fun _ => y
    Z := (yCenters bin_ft).map fun y =>
      (xCenters bin_ft).map fun x => diffLookup (ztOf plA lgA) (cellKey bin_ft x y)
    labels := (yCenters bin_ft).map fun y =>
      (xCenters bin_ft).map fun x => encodeKey (cellKey bin_ft x y) }

/-- `zone_diff_grid(player_df, league_df, bin_ft)`: compute both zone tables
(league first, as in the source, so its schema error surfaces first), then
build the differential grid. -/
def zone_diff_grid (player_df : PlayerDF) (league_df : LeagueDF) (bin_ft : ℚ) :
    Except String GridOut :=
  match league_zone_fg_table league_df with
  | .error e => .error e
  | .ok lg =>
    match player_zone_fg_table player_df with
    | .error e => .error e
    | .ok pl => .ok (buildGrid pl lg bin_ft)

/-- `Zdiff[i, j]` (0 outside the grid). -/
def zdEntry (g : GridOut) (i j : ℕ) : ℚ := (g.Z.getD i []).getD j 0

/-- `labels[i, j]` (empty string outside the grid). -/
def labelEntry (g : GridOut) (i j : ℕ) : String := (g.labels.getD i []).getD j ""

/-! ### Helper lemmas on the grid pipeline -/

/-- Inversion of the two monadic table computations of `zone_diff_grid`. -/
lemma zone_diff_grid_ok {player_df : PlayerDF} {league_df : LeagueDF} {bin_ft : ℚ}
    {g : GridOut} (h : zone_diff_grid player_df league_df bin_ft = .ok g) :
    ∃ plA lgA, player_zone_fg_table player_df = .ok plA
      ∧ league_zone_fg_table league_df = .ok lgA ∧ g = buildGrid plA lgA bin_ft := by
  unfold zone_diff_grid at h
  cases hl : league_zone_fg_table league_df with
  | error e => rw [hl] at h; exact Except.noConfusion h
  | ok lgA =>
    rw [hl] at h
    cases hp : player_zone_fg_table player_df with
    | error e => rw [hp] at h; exact Except.noConfusion h
    | ok plA =>
      rw [hp] at h
      exact ⟨plA, lgA, rfl, rfl, (Except.ok.inj h).symm⟩

/-- Reading a cell of a row-major grid built by mapping over the two centre
axes. -/
lemma grid_entry_getD {β : Type} (f : ℚ → ℚ → β) (dflt : β) (xc yc : List ℚ)
    (i j : ℕ) (hi : i < yc.length) (hj : j < xc.length) :
    ((yc.map fun y => xc.map fun x => f x y).getD i []).getD j dflt
      = f (xc.getD j 0) (yc.getD i 0) := by
  rw [List.getD_eq_getElem?_getD (yc.map fun y => xc.map fun x => f x y) i,
    List.getElem?_map, List.getElem?_eq_getElem hi]
  simp only [Option.map_some', Option.getD_some]
  rw [List.getD_eq_getElem?_getD (xc.map fun x => f x yc[i]) j,
    List.getElem?_map, List.getElem?_eq_getElem hj]
  simp only [Option.map_some', Option.getD_some]
  rw [List.getD_eq_getElem xc 0 hj, List.getD_eq_getElem yc 0 hi]

lemma buildGrid_Z_entry (plA : List PlayerAgg) (lgA : List LeagueAgg) (bin_ft : ℚ)
    (i j : ℕ) (hi : i < (yCenters bin_ft).length) (hj : j < (xCenters bin_ft).length) :
    zdEntry (buildGrid plA lgA bin_ft) i j
      = diffLookup (ztOf plA lgA)
          (cellKey bin_ft ((xCenters bin_ft).getD j 0) ((yCenters bin_ft).getD i 0)) :=
  grid_entry_getD (fun x y => diffLookup (ztOf plA lgA) (cellKey bin_ft x y)) 0
    (xCenters bin_ft) (yCenters bin_ft) i j hi hj

lemma buildGrid_label_entry (plA : List PlayerAgg) (lgA : List LeagueAgg) (bin_ft : ℚ)
    (i j : ℕ) (hi : i < (yCenters bin_ft).length) (hj : j < (xCenters bin_ft).length) :
    labelEntry (buildGrid plA lgA bin_ft) i j
      = encodeKey (cellKey bin_ft ((xCenters bin_ft).getD j 0) ((yCenters bin_ft).getD i 0)) :=
  grid_entry_getD (fun x y => encodeKey (cellKey bin_ft x y)) ""
    (xCenters bin_ft) (yCenters bin_ft) i j hi hj

/-- Every row of the merged table satisfies `diff = player_fg - league_fg` by
construction. -/
lemma mergeTables_diff {pl : List PlayerAgg} {lg : List LeagueAgg} :
    ∀ r ∈ mergeTables pl lg, r.diff = r.playerFg - r.leagueFg := by
  intro r hr
  unfold mergeTables at hr
  rw [List.mem_map] at hr
  obtain ⟨p, _, rfl⟩ := hr
  rfl

/-- The dictionary lookup of `diff` is the lookup of
`player_fg - league_fg` (default 0). -/
lemma diffLookup_eq (plA : List PlayerAgg) (lgA : List LeagueAgg) (k : String × String) :
    diffLookup (ztOf plA lgA) k
      = match ztLookup (ztOf plA lgA) k with
        | some r => r.playerFg - r.leagueFg
        | none => 0 := by
  unfold diffLookup
  cases hf : ztLookup (ztOf plA lgA) k with
  | none => rfl
  | some r => exact mergeTables_diff r (List.mem_of_find?_eq_some hf)

/-- The six basic-zone labels `classify_basic_zone` can return. -/
def gridBasics : List String :=
  ["Restricted Area", "In The Paint (Non-RA)", "Left Corner 3", "Right Corner 3",
   "Above the Break 3", "Mid-Range"]

/-- The five area-lane labels. -/
def gridAreas : List String :=
  ["Left Side(L)", "Left Side Center(LC)", "Center(C)", "Right Side Center(RC)",
   "Right Side(R)"]

/-- All zone keys a grid cell can receive. -/
def allKeys : List (String × String) :=
  gridBasics.flatMap fun b => gridAreas.map fun a => (b, a)

lemma classify_basic_zone_mem (x y pad_ft : ℚ) :
    classify_basic_zone x y pad_ft ∈ gridBasics := by
  unfold classify_basic_zone
  split_ifs <;> decide

lemma laneOf_mem (yy : ℚ) : laneOf yy ∈ gridAreas := by
  unfold laneOf
  split_ifs <;> decide

lemma collapse_atb_mem (a : String) : _collapse_atb_area a ∈ gridAreas := by
  unfold _collapse_atb_area
  split_ifs <;> decide

lemma mem_allKeys_of {b a : String} (hb : b ∈ gridBasics) (ha : a ∈ gridAreas) :
    (b, a) ∈ allKeys := by
  unfold allKeys
  rw [List.mem_flatMap]
  exact ⟨b, hb, List.mem_map.mpr ⟨a, ha, rfl⟩⟩

lemma cellKey_mem (bin_ft x y : ℚ) : cellKey bin_ft x y ∈ allKeys := by
  have hb : (cellKey bin_ft x y).1 ∈ gridBasics := classify_basic_zone_mem x y (bin_ft / 2)
  have ha : (cellKey bin_ft x y).2 ∈ gridAreas := by
    simp only [cellKey]
    split_ifs
    · decide
    · exact collapse_atb_mem _
    · exact laneOf_mem _
  simpa using mem_allKeys_of hb ha

/-- The label encoding `f"{basic}_{area}"` is injective on the keys a cell
can receive (no basic-zone label contains an underscore). -/
lemma encodeKey_inj_on : ∀ k ∈ allKeys, ∀ k' ∈ allKeys,
    encodeKey k = encodeKey k' → k = k' := by decide

/-- A league table with no rows aggregates to the empty table whenever it
aggregates at all. -/
lemma league_ok_of_rows_nil {league_df : LeagueDF} {lgA : List LeagueAgg}
    (hrows : league_df.rows = [])
    (hl : league_zone_fg_table league_df = .ok lgA) : lgA = [] := by
  unfold league_zone_fg_table at hl
  rw [hrows] at hl
  split_ifs at hl <;>
    first
    | exact Except.noConfusion hl
    | simpa [groupBy, uniqueKeys] using (Except.ok.inj hl).symm

/-- With an empty league table every differential lookup is 0. -/
lemma diffLookup_empty_league (plA : List PlayerAgg) (k : String × String) :
    diffLookup (ztOf plA []) k = 0 := by
  unfold diffLookup
  cases hf : ztLookup (ztOf plA []) k with
  | none => rfl
  | some r =>
    have hr : r ∈ ztOf plA [] := List.mem_of_find?_eq_some hf
    have hempty :
        collapseLeague (List.filter (fun r => decide (r.area ∉ badAreas))
          ([] : List LeagueAgg)) = [] := rfl
    unfold ztOf at hr
    rw [hempty] at hr
    unfold mergeTables at hr
    rw [List.mem_map] at hr
    obtain ⟨p, _, rfl⟩ := hr
    simp [List.find?]

/-! ### Claim theorems on the differential grid -/

/-- C1: for every pair of accepted tables and every bin size, every cell of
the returned differential grid carries `player_fg(key) - league_fg(key)` for
the zone key recorded in its label (0 when the key is absent from the merged
table), and any two cells with the same label carry the same differential. -/
theorem claim_C1_diff_grid_invariant
    (player_df : PlayerDF) (league_df : LeagueDF) (bin_ft : ℚ) (g : GridOut)
    (plA : List PlayerAgg) (lgA : List LeagueAgg)
    (hp : player_zone_fg_table player_df = .ok plA)
    (hl : league_zone_fg_table league_df = .ok lgA)
    (hg : zone_diff_grid player_df league_df bin_ft = .ok g)
    (i j : ℕ) (hi : i < (yCenters bin_ft).length) (hj : j < (xCenters bin_ft).length) :
    ∃ k : String × String,
      labelEntry g i j = encodeKey k
      ∧ zdEntry g i j = (match ztLookup (ztOf plA lgA) k with
          | some r => r.playerFg - r.leagueFg
          | none => 0)
      ∧ ∀ i' j', i' < (yCenters bin_ft).length → j' < (xCenters bin_ft).length →
          labelEntry g i' j' = labelEntry g i j → zdEntry g i' j' = zdEntry g i j := by
  obtain ⟨plA', lgA', hp', hl', rfl⟩ := zone_diff_grid_ok hg
  rw [hp] at hp'
  rw [hl] at hl'
  obtain rfl : plA = plA' := Except.ok.inj hp'
  obtain rfl : lgA = lgA' := Except.ok.inj hl'
  refine ⟨cellKey bin_ft ((xCenters bin_ft).getD j 0) ((yCenters bin_ft).getD i 0),
    buildGrid_label_entry plA lgA bin_ft i j hi hj, ?_, ?_⟩
  · rw [buildGrid_Z_entry plA lgA bin_ft i j hi hj]
    exact diffLookup_eq plA lgA _
  · intro i' j' hi' hj' hlab
    rw [buildGrid_label_entry plA lgA bin_ft i' j' hi' hj',
      buildGrid_label_entry plA lgA bin_ft i j hi hj] at hlab
    have hk := encodeKey_inj_on _ (cellKey_mem _ _ _) _ (cellKey_mem _ _ _) hlab
    rw [buildGrid_Z_entry plA lgA bin_ft i' j' hi' hj',
      buildGrid_Z_entry plA lgA bin_ft i j hi hj, hk]

/-- C4: every cell's label is built from the basic zone classified with
`pad_ft = bin/2`; restricted-area and paint cells are forced to the
`Center(C)` lane; otherwise the lane comes from `classify_area_lane`,
collapsed only for Above-the-Break-3 cells. -/
theorem claim_C4_cell_key
    (player_df : PlayerDF) (league_df : LeagueDF) (bin_ft : ℚ) (g : GridOut)
    (hg : zone_diff_grid player_df league_df bin_ft = .ok g)
    (i j : ℕ) (hi : i < (yCenters bin_ft).length) (hj : j < (xCenters bin_ft).length) :
    labelEntry g i j =
      classify_basic_zone ((xCenters bin_ft).getD j 0) ((yCenters bin_ft).getD i 0)
          (bin_ft / 2)
        ++ "_" ++
        (if classify_basic_zone ((xCenters bin_ft).getD j 0) ((yCenters bin_ft).getD i 0)
              (bin_ft / 2) = "In The Paint (Non-RA)"
            ∨ classify_basic_zone ((xCenters bin_ft).getD j 0) ((yCenters bin_ft).getD i 0)
              (bin_ft / 2) = "Restricted Area" then "Center(C)"
         else if classify_basic_zone ((xCenters bin_ft).getD j 0)
              ((yCenters bin_ft).getD i 0) (bin_ft / 2) = "Above the Break 3" then
           _collapse_atb_area (classify_area_lane ((yCenters bin_ft).getD i 0))
         else classify_area_lane ((yCenters bin_ft).getD i 0)) := by
  obtain ⟨plA, lgA, _, _, rfl⟩ := zone_diff_grid_ok hg
  rw [buildGrid_label_entry plA lgA bin_ft i j hi hj]
  rfl

/-- C3: a league table whose rows are empty, or whose columns match none of
the three supported schemas, aggregates to the empty table rather than an
error; and every cell of a differential grid built from an empty league
table is exactly 0. -/
theorem claim_C3_empty_league :
    (∀ league_df : LeagueDF,
      "SHOT_ZONE_BASIC" ∈ league_df.cols → "SHOT_ZONE_AREA" ∈ league_df.cols →
      (league_df.rows = []
        ∨ (¬("FGM" ∈ league_df.cols ∧ "FGA" ∈ league_df.cols)
            ∧ "FG_PCT" ∉ league_df.cols ∧ "SHOT_MADE_FLAG" ∉ league_df.cols)) →
      league_zone_fg_table league_df = .ok [])
    ∧ ∀ (player_df : PlayerDF) (league_df : LeagueDF) (bin_ft : ℚ) (g : GridOut),
        league_df.rows = [] → zone_diff_grid player_df league_df bin_ft = .ok g →
        ∀ i j, i < (yCenters bin_ft).length → j < (xCenters bin_ft).length →
          zdEntry g i j = 0 := by
  constructor
  · intro ldf h1 h2 h3
    unfold league_zone_fg_table
    rw [if_pos ⟨h1, h2⟩]
    rcases h3 with h3 | ⟨hfa, hfp, hsm⟩
    · rw [h3]
      split_ifs <;> simp [groupBy, uniqueKeys]
    · rw [if_neg hfa, if_neg hfp, if_neg hsm]
  · intro pdf ldf bin_ft g hrows hg i j hi hj
    obtain ⟨plA, lgA, hp, hl, rfl⟩ := zone_diff_grid_ok hg
    obtain rfl : lgA = [] := league_ok_of_rows_nil hrows hl
    rw [buildGrid_Z_entry plA [] bin_ft i j hi hj]
    exact diffLookup_empty_league plA _

/-! ### Concrete witness inputs for the grid claims -/

/-- A one-shot player frame (a made restricted-area shot). -/
def pdfW : PlayerDF :=
  { cols := ["SHOT_ZONE_BASIC", "SHOT_ZONE_AREA", "SHOT_MADE_FLAG"],
    rows := [{ basic := "Restricted Area", area := "Center(C)", madeFlag := 1 }] }

/-- A league frame with the required columns but no rows and no value
columns. -/
def ldfW : LeagueDF :=
  { cols := ["SHOT_ZONE_BASIC", "SHOT_ZONE_AREA"], rows := [] }

/-- The player aggregation of `pdfW`. -/
def plAW : List PlayerAgg :=
  [{ basic := "Restricted Area", area := "Center(C)", playerFg := 1, att := 1, made := 1 }]

lemma league_table_ldfW : league_zone_fg_table ldfW = .ok [] := by
  unfold league_zone_fg_table
  rw [if_pos (by decide), if_neg (by decide), if_neg (by decide), if_neg (by decide)]

lemma player_table_pdfW : player_zone_fg_table pdfW = .ok plAW := by
  have h1 : "SHOT_ZONE_BASIC" ∈ pdfW.cols ∧ "SHOT_ZONE_AREA" ∈ pdfW.cols := by decide
  have h2 : "SHOT_MADE_FLAG" ∈ pdfW.cols := by decide
  unfold player_zone_fg_table
  rw [if_pos h1, if_pos h2]
  norm_num [pdfW, plAW, groupBy, uniqueKeys, safeRatio0]

lemma grid_ok_W : zone_diff_grid pdfW ldfW 50 = .ok (buildGrid plAW [] 50) := by
  unfold zone_diff_grid
  rw [league_table_ldfW, player_table_pdfW]

/-- With a 50-foot bin the grid has a single cell. -/
lemma xCenters_50 : xCenters 50 = [25] := by
  unfold xCenters arange COURT_LENGTH_HALF
  have hc : (⌈(((47 : ℚ)) - 50 / 2) / 50⌉ : ℤ) = 1 := by
    rw [Int.ceil_eq_iff] <;> norm_num
  rw [hc, show Int.toNat 1 = 1 from rfl, show List.range 1 = [0] from rfl]
  norm_num

lemma yCenters_50 : yCenters 50 = [0] := by
  unfold yCenters arange COURT_WIDTH
  have hc : (⌈(((50 : ℚ)) / 2 - (-(50 / 2) + 50 / 2)) / 50⌉ : ℤ) = 1 := by
    rw [Int.ceil_eq_iff] <;> norm_num
  rw [hc, show Int.toNat 1 = 1 from rfl, show List.range 1 = [0] from rfl]
  norm_num

theorem claim_C1_witness :
    ∃ k : String × String,
      labelEntry (buildGrid plAW [] 50) 0 0 = encodeKey k
      ∧ zdEntry (buildGrid plAW [] 50) 0 0 = (match ztLookup (ztOf plAW []) k with
          | some r => r.playerFg - r.leagueFg
          | none => 0)
      ∧ ∀ i' j', i' < (yCenters 50).length → j' < (xCenters 50).length →
          labelEntry (buildGrid plAW [] 50) i' j' = labelEntry (buildGrid plAW [] 50) 0 0 →
          zdEntry (buildGrid plAW [] 50) i' j' = zdEntry (buildGrid plAW [] 50) 0 0 :=
  claim_C1_diff_grid_invariant pdfW ldfW 50 (buildGrid plAW [] 50) plAW []
    player_table_pdfW league_table_ldfW grid_ok_W 0 0
    (by rw [yCenters_50]; decide) (by rw [xCenters_50]; decide)

theorem claim_C3_witness :
    league_zone_fg_table ldfW = .ok [] ∧ zdEntry (buildGrid plAW [] 50) 0 0 = 0 :=
  ⟨claim_C3_empty_league.1 ldfW (by decide) (by decide) (Or.inl rfl),
   claim_C3_empty_league.2 pdfW ldfW 50 (buildGrid plAW [] 50) rfl grid_ok_W 0 0
     (by rw [yCenters_50]; decide) (by rw [xCenters_50]; decide)⟩

theorem claim_C4_witness :
    labelEntry (buildGrid plAW [] 50) 0 0 =
      classify_basic_zone ((xCenters 50).getD 0 0) ((yCenters 50).getD 0 0) (50 / 2)
        ++ "_" ++
        (if classify_basic_zone ((xCenters 50).getD 0 0) ((yCenters 50).getD 0 0) (50 / 2)
              = "In The Paint (Non-RA)"
            ∨ classify_basic_zone ((xCenters 50).getD 0 0) ((yCenters 50).getD 0 0) (50 / 2)
              = "Restricted Area" then "Center(C)"
         else if classify_basic_zone ((xCenters 50).getD 0 0) ((yCenters 50).getD 0 0)
              (50 / 2) = "Above the Break 3" then
           _collapse_atb_area (classify_area_lane ((yCenters 50).getD 0 0))
         else classify_area_lane ((yCenters 50).getD 0 0)) :=
  claim_C4_cell_key pdfW ldfW 50 (buildGrid plAW [] 50) grid_ok_W 0 0
    (by rw [yCenters_50]; decide) (by rw [xCenters_50]; decide)

/-! ### Boundary extraction (`src/heatmap.py`, `add_zone_boundaries_from_labels`) -/

/-- `np.diff`: consecutive differences. -/
def npDiff (l : List ℚ) : List ℚ := (l.zip l.tail).map fun p => p.2 - p.1

/-- `np.median`: sort ascending, take the middle element, or the mean of the
two middle elements when the length is even. -/
def npMedian (l : List ℚ) : ℚ :=
  if (l.insertionSort (· ≤ ·)).length % 2 = 1 then
    (l.insertionSort (· ≤ ·)).getD ((l.insertionSort (· ≤ ·)).length / 2) 0
  else
    ((l.insertionSort (· ≤ ·)).getD ((l.insertionSort (· ≤ ·)).length / 2 - 1) 0
      + (l.insertionSort (· ≤ ·)).getD ((l.insertionSort (· ≤ ·)).length / 2) 0) / 2

/-- The source's bin-size estimate: median of consecutive centre differences,
`2.0` for a single-entry axis. -/
def binGap (cent : List ℚ) : ℚ :=
  if 1 < cent.length then npMedian (npDiff cent) else 2

/-- Bin edges: midpoints of consecutive centres, extrapolated at both array
ends by half a bin. -/
def binEdges (cent : List ℚ) : List ℚ :=
  (cent.headD 0 - binGap cent / 2)
    :: (((cent.zip cent.tail).map fun p => (p.1 + p.2) / 2)
      ++ [cent.getLastD 0 + binGap cent / 2])

/-- One boundary segment from `(x0, y0)` to `(x1, y1)` on the floor plane. -/
structure Seg where
  x0 : ℚ
  x1 : ℚ
  y0 : ℚ
  y1 : ℚ
deriving DecidableEq

/-- `add_zone_boundaries_from_labels`: emit the vertical boundary segments
between horizontally adjacent cells with different labels, then the
horizontal segments between vertically adjacent cells.  Each `_add_segment`
call is one geometric segment (the optional halo re-draws the same geometry
and is purely styling); `ny, nx = labels.shape`; the centre axes are
`x_cent = X[0, :]` and `y_cent = Y[:, 0]`. -/
def add_zone_boundaries_from_labels (x_cent y_cent : List ℚ)
    (labels : List (List String)) : List Seg :=
  ((List.range labels.length).flatMap fun i =>
    (List.range ((labels.headD []).length - 1)).filterMap fun j =>
      if (labels.getD i []).getD j "" ≠ (labels.getD i []).getD (j + 1) "" then
        some { x0 := (binEdges x_cent).getD (j + 1) 0, x1 := (binEdges x_cent).getD (j + 1) 0,
               y0 := (binEdges y_cent).getD i 0, y1 := (binEdges y_cent).getD (i + 1) 0 }
      else none)
  ++ ((List.range (labels.length - 1)).flatMap fun i =>
    (List.range (labels.headD []).length).filterMap fun j =>
      if (labels.getD i []).getD j "" ≠ (labels.getD (i + 1) []).getD j "" then
        some { x0 := (binEdges x_cent).getD j 0, x1 := (binEdges x_cent).getD (j + 1) 0,
               y0 := (binEdges y_cent).getD (i + 1) 0, y1 := (binEdges y_cent).getD (i + 1) 0 }
      else none)

/-- The median of a list all of whose entries are `c` is `c`. -/
lemma npMedian_const {l : List ℚ} {c : ℚ} (hne : l ≠ [])
    (hall : ∀ x ∈ l, x = c) : npMedian l = c := by
  have hperm : List.Perm (l.insertionSort (· ≤ ·)) l := List.perm_insertionSort _ l
  have hlen : (l.insertionSort (· ≤ ·)).length = l.length := hperm.length_eq
  have hsne : (l.insertionSort (· ≤ ·)).length ≠ 0 := by
    rw [hlen]
    exact fun h => hne (List.length_eq_zero.mp h)
  have hget : ∀ i, i < (l.insertionSort (· ≤ ·)).length →
      (l.insertionSort (· ≤ ·)).getD i 0 = c := by
    intro i hi
    rw [List.getD_eq_getElem _ 0 hi]
    exact hall _ (hperm.mem_iff.mp (List.getElem_mem hi))
  unfold npMedian
  split_ifs with hpar
  · exact hget _ (by omega)
  · rw [hget _ (by omega), hget _ (by omega)]
    norm_num

/-- On a regularly spaced axis the source's median gap is the bin size. -/
lemma binGap_const (cent : List ℚ) (d : ℚ) (hlen : 1 < cent.length)
    (hd : ∀ p ∈ cent.zip cent.tail, p.2 - p.1 = d) : binGap cent = d := by
  have hlz : (npDiff cent).length = cent.length - 1 := by
    unfold npDiff
    rw [List.length_map, List.length_zip _ _, List.length_tail]
    omega
  unfold binGap
  rw [if_pos hlen]
  apply npMedian_const
  · intro h
    rw [h] at hlz
    simp at hlz
    omega
  · intro x hx
    unfold npDiff at hx
    rw [List.mem_map] at hx
    obtain ⟨p, hp, rfl⟩ := hx
    exact hd p hp

lemma binEdges_fst (cent : List ℚ) (hne : cent ≠ []) :
    (binEdges cent).getD 0 0 = cent.getD 0 0 - binGap cent / 2 := by
  unfold binEdges
  rw [List.getD_cons_zero]
  congr 1
  cases cent with
  | nil => exact absurd rfl hne
  | cons a t => rfl

lemma binEdges_mid (cent : List ℚ) (k : ℕ) (hk : k + 1 < cent.length) :
    (binEdges cent).getD (k + 1) 0 = (cent.getD k 0 + cent.getD (k + 1) 0) / 2 := by
  unfold binEdges
  rw [List.getD_cons_succ]
  have hkz : k < ((cent.zip cent.tail).map fun p => (p.1 + p.2) / 2).length := by
    rw [List.length_map, List.length_zip _ _, List.length_tail]
    omega
  rw [List.getD_append _ _ 0 k hkz, List.getD_eq_getElem _ 0 hkz, List.getElem_map]
  simp only [List.getElem_zip, List.getElem_tail]
  rw [List.getD_eq_getElem cent 0 (by omega), List.getD_eq_getElem cent 0 hk]

lemma binEdges_last (cent : List ℚ) (hne : cent ≠ []) :
    (binEdges cent).getD cent.length 0 = cent.getLastD 0 + binGap cent / 2 := by
  have hpos : 0 < cent.length := List.length_pos.mpr hne
  have hml : ((cent.zip cent.tail).map fun p => (p.1 + p.2) / 2).length
      = cent.length - 1 := by
    rw [List.length_map, List.length_zip _ _, List.length_tail]
    omega
  unfold binEdges
  rw [show cent.length = (cent.length - 1) + 1 by omega, List.getD_cons_succ,
    List.getD_append_right _ _ 0 _ (by rw [hml]), hml]
  simp

/-- C2: a vertical segment is emitted at the shared edge of horizontally
adjacent cells iff their labels differ, and a horizontal segment between
vertically adjacent cells iff their labels differ — never between equal
labels; each segment lies on bin edges (interior edges are midpoints of
adjacent centres; on a regularly spaced axis the end edges extrapolate by
half a bin) and spans the corresponding edge interval. -/
theorem claim_C2_boundary_segments (x_cent y_cent : List ℚ)
    (labels : List (List String)) :
    (∀ s : Seg,
      s ∈ add_zone_boundaries_from_labels x_cent y_cent labels ↔
        ((∃ i j, i < labels.length ∧ j + 1 < (labels.headD []).length
            ∧ (labels.getD i []).getD j "" ≠ (labels.getD i []).getD (j + 1) ""
            ∧ s = { x0 := (binEdges x_cent).getD (j + 1) 0,
                    x1 := (binEdges x_cent).getD (j + 1) 0,
                    y0 := (binEdges y_cent).getD i 0,
                    y1 := (binEdges y_cent).getD (i + 1) 0 })
          ∨ (∃ i j, i + 1 < labels.length ∧ j < (labels.headD []).length
            ∧ (labels.getD i []).getD j "" ≠ (labels.getD (i + 1) []).getD j ""
            ∧ s = { x0 := (binEdges x_cent).getD j 0,
                    x1 := (binEdges x_cent).getD (j + 1) 0,
                    y0 := (binEdges y_cent).getD (i + 1) 0,
                    y1 := (binEdges y_cent).getD (i + 1) 0 })))
    ∧ ∀ (cent : List ℚ) (d : ℚ), 1 < cent.length →
        (∀ p ∈ cent.zip cent.tail, p.2 - p.1 = d) →
        (binEdges cent).getD 0 0 = cent.getD 0 0 - d / 2
        ∧ (∀ k, k + 1 < cent.length →
            (binEdges cent).getD (k + 1) 0 = (cent.getD k 0 + cent.getD (k + 1) 0) / 2)
        ∧ (binEdges cent).getD cent.length 0 = cent.getLastD 0 + d / 2 := by
  constructor
  · intro s
    unfold add_zone_boundaries_from_labels
    simp only [List.mem_append, List.mem_flatMap, List.mem_filterMap, List.mem_range,
      Option.ite_none_right_eq_some, Option.some.injEq]
    constructor
    · rintro (⟨i, hi, j, hj, hne, rfl⟩ | ⟨i, hi, j, hj, hne, rfl⟩)
      · exact Or.inl ⟨i, j, hi, by omega, hne, rfl⟩
      · exact Or.inr ⟨i, j, by omega, hj, hne, rfl⟩
    · rintro (⟨i, j, hi, hj, hne, rfl⟩ | ⟨i, j, hi, hj, hne, rfl⟩)
      · exact Or.inl ⟨i, hi, j, by omega, hne, rfl⟩
      · exact Or.inr ⟨i, by omega, j, hj, hne, rfl⟩
  · intro cent d hlen hd
    have hgap := binGap_const cent d hlen hd
    have hne : cent ≠ [] := by
      intro h
      rw [h] at hlen
      simp at hlen
    refine ⟨?_, fun k hk => binEdges_mid cent k hk, ?_⟩
    · rw [binEdges_fst cent hne, hgap]
    · rw [binEdges_last cent hne, hgap]

lemma binEdges_pair13 : binEdges [1, 3] = [0, 2, 4] := by
  norm_num [binEdges, binGap, npDiff, npMedian, List.insertionSort, List.orderedInsert,
    List.getLastD, List.zip]

lemma binEdges_pair11 : binEdges [-1, 1] = [-2, 0, 2] := by
  norm_num [binEdges, binGap, npDiff, npMedian, List.insertionSort, List.orderedInsert,
    List.getLastD, List.zip]

theorem claim_C2_witness :
    (Seg.mk 2 2 (-2) 0 ∈
      add_zone_boundaries_from_labels [1, 3] [-1, 1] [["a", "b"], ["a", "a"]])
    ∧ (binEdges [1, 3]).getD 0 0 = [1, 3].getD 0 0 - 2 / 2 := by
  constructor
  · apply ((claim_C2_boundary_segments [1, 3] [-1, 1] [["a", "b"], ["a", "a"]]).1 _).mpr
    refine Or.inl ⟨0, 0, by decide, by decide, by decide, ?_⟩
    rw [binEdges_pair13, binEdges_pair11]
    rfl
  · exact ((claim_C2_boundary_segments [1, 3] [-1, 1] [["a", "b"], ["a", "a"]]).2
      [1, 3] 2 (by norm_num)
      (by
        intro p hp
        simp only [List.zip, List.tail, List.zipWith, List.mem_singleton] at hp
        rw [hp]
        norm_num)).1

/-! ### Sanity: the merged table has one row per zone key, so the
left-to-right `find?` in `ztLookup` coincides with the Python dict built by
iterating its rows (later duplicates would overwrite, but there are none). -/

lemma uniqueKeys_nodup (l : List (String × String)) : (uniqueKeys l).Nodup := by
  induction l with
  | nil => exact List.nodup_nil
  | cons k ks ih =>
    unfold uniqueKeys
    split_ifs with h
    · exact ih
    · exact List.nodup_cons.mpr ⟨h, ih⟩

lemma ztOf_keys_nodup (plA : List PlayerAgg) (lgA : List LeagueAgg) :
    ((ztOf plA lgA).map fun r => (r.basic, r.area)).Nodup := by
  have h1 : ((ztOf plA lgA).map fun r => (r.basic, r.area))
      = (collapsePlayer (plA.filter fun r => decide (r.area ∉ badAreas))).map
          fun p => (p.basic, p.area) := by
    unfold ztOf mergeTables
    rw [List.map_map]
    rfl
  rw [h1]
  unfold collapsePlayer groupBy
  rw [List.map_map, List.map_map]
  convert uniqueKeys_nodup _ using 1
  exact List.map_id'' (fun k => rfl) _
